import Mathlib

/-
Verification development for the FoxRLY/WildberriesTest employee salary
service (Rust, actix-web + sqlx/Postgres).

The embedding covers:
  * the validated value types and their check functions (src/models.rs):
    check_name / check_salary / check_percentage and the Unchecked* types
    with their consuming check methods;
  * the checked i32 salary arithmetic EmployeeSalary::increase_by_percentage
    (src/models.rs, lines 110-126), modelled over Int with explicit i32
    range checks mirroring Rust checked_mul / checked_add / checked_sub /
    checked_div;
  * the Postgres store operations (src/postgres_client.rs): the table is
    modelled as a list of (name, salary) rows in insertion order; SELECT
    with fetch_one returns the first matching row, INSERT appends, UPDATE
    rewrites every matching row, and the begin/commit transaction of
    increase_employee_salary is modelled by run_increase, which keeps the
    old state whenever the transaction body errors (rollback).
-/

namespace WBTest

/-- Lower bound of the Rust i32 type. -/
def i32min : Int := -2147483648

/-- Upper bound of the Rust i32 type. -/
def i32max : Int := 2147483647

/-- The value fits in the Rust i32 range. -/
def inI32 (n : Int) : Prop := i32min ≤ n ∧ n ≤ i32max

instance (n : Int) : Decidable (inI32 n) :=
  inferInstanceAs (Decidable (_ ∧ _))

/-- Rust i32::checked_mul: the exact product if it fits in i32, else None. -/
def checked_mul (a b : Int) : Option Int :=
  if inI32 (a * b) then some (a * b) else none

/-- Rust i32::checked_add: the exact sum if it fits in i32, else None. -/
def checked_add (a b : Int) : Option Int :=
  if inI32 (a + b) then some (a + b) else none

/-- Rust i32::checked_sub: the exact difference if it fits in i32, else None. -/
def checked_sub (a b : Int) : Option Int :=
  if inI32 (a - b) then some (a - b) else none

/-- Rust i32::checked_div: None on division by zero or on i32::MIN / -1,
otherwise the quotient truncated toward zero. -/
def checked_div (a b : Int) : Option Int :=
  if b = 0 ∨ (a = i32min ∧ b = -1) then none else some (a.tdiv b)

/-- Rust str::trim on the character list of a string: strips leading and
trailing whitespace characters. -/
def trimChars (cs : List Char) : List Char :=
  ((cs.dropWhile Char.isWhitespace).reverse.dropWhile Char.isWhitespace).reverse

/-- The validation errors raised by the check functions in src/models.rs
(CustomError values, distinguished here by which check raised them). -/
inductive CheckError where
  | invalidName
  | invalidSalary
  | invalidPercentage
deriving DecidableEq, Repr

/-- models.rs check_name: fails when the name trims to the empty string. -/
def check_name (name : String) : Except CheckError Unit :=
  if trimChars name.data = [] then .error .invalidName else .ok ()

/-- models.rs check_salary: fails when the salary is less than or equal to zero. -/
def check_salary (salary : Int) : Except CheckError Unit :=
  if salary ≤ 0 then .error .invalidSalary else .ok ()

/-- models.rs check_percentage: fails when the percentage is less than or
equal to zero. -/
def check_percentage (percentage : Int) : Except CheckError Unit :=
  if percentage ≤ 0 then .error .invalidPercentage else .ok ()

/-- models.rs UncheckedEmployeeName. -/
structure UncheckedEmployeeName where
  name : String
deriving DecidableEq, Repr

/-- models.rs EmployeeName. -/
structure EmployeeName where
  name : String
deriving DecidableEq, Repr

/-- models.rs UncheckedEmployeeName::check. -/
def UncheckedEmployeeName.check (self : UncheckedEmployeeName) :
    Except CheckError EmployeeName :=
  match check_name self.name with
  | .error e => .error e
  | .ok _ => .ok ⟨self.name⟩

/-- models.rs UncheckedEmployeeSalary. -/
structure UncheckedEmployeeSalary where
  amount : Int
deriving DecidableEq, Repr

/-- models.rs EmployeeSalary. -/
structure EmployeeSalary where
  amount : Int
deriving DecidableEq, Repr

/-- models.rs UncheckedEmployeeSalary::check. -/
def UncheckedEmployeeSalary.check (self : UncheckedEmployeeSalary) :
    Except CheckError EmployeeSalary :=
  match check_salary self.amount with
  | .error e => .error e
  | .ok _ => .ok ⟨self.amount⟩

/-- models.rs UncheckedEmployeeData. -/
structure UncheckedEmployeeData where
  name : String
  salary : Int
deriving DecidableEq, Repr

/-- models.rs EmployeeData. -/
structure EmployeeData where
  name : String
  salary : Int
deriving DecidableEq, Repr

/-- models.rs UncheckedEmployeeData::check. -/
def UncheckedEmployeeData.check (self : UncheckedEmployeeData) :
    Except CheckError EmployeeData :=
  match check_name self.name with
  | .error e => .error e
  | .ok _ =>
    match check_salary self.salary with
    | .error e => .error e
    | .ok _ => .ok ⟨self.name, self.salary⟩

/-- models.rs UncheckedSalaryMultiplier. -/
structure UncheckedSalaryMultiplier where
  name : String
  percentage : Int
deriving DecidableEq, Repr

/-- models.rs SalaryMultiplier. -/
structure SalaryMultiplier where
  name : String
  percentage : Int
deriving DecidableEq, Repr

/-- models.rs UncheckedSalaryMultiplier::check: name first, percentage second. -/
def UncheckedSalaryMultiplier.check (self : UncheckedSalaryMultiplier) :
    Except CheckError SalaryMultiplier :=
  match check_name self.name with
  | .error e => .error e
  | .ok _ =>
    match check_percentage self.percentage with
    | .error e => .error e
    | .ok _ => .ok ⟨self.name, self.percentage⟩

/-- The failure reasons of EmployeeSalary::increase_by_percentage, one per
fallible step of the source (models.rs lines 113-124). -/
inductive IncreaseError where
  | mulOverflow
  | addOverflow
  | subUnderflow
  | divError
  | finalAddOverflow
  | invalidResult
deriving DecidableEq, Repr

/-- models.rs EmployeeSalary::increase_by_percentage. The Rust method
mutates self and returns the old salary; here it returns the pair
(new amount, old amount) on success. The step sequence is exactly that of
the source: checked_mul by the percentage, checked_add 100, checked_sub 1,
checked_div 100, checked_add onto the current amount, then check_salary on
the result. -/
def increase_by_percentage (amount percentage : Int) :
    Except IncreaseError (Int × Int) :=
  match checked_mul amount percentage with
  | none => .error .mulOverflow
  | some a1 =>
    match checked_add a1 100 with
    | none => .error .addOverflow
    | some a2 =>
      match checked_sub a2 1 with
      | none => .error .subUnderflow
      | some a3 =>
        match checked_div a3 100 with
        | none => .error .divError
        | some addition =>
          match checked_add amount addition with
          | none => .error .finalAddOverflow
          | some newAmount =>
            match check_salary newAmount with
            | .error _ => .error .invalidResult
            | .ok _ => .ok (newAmount, amount)

/-- One row of the employees table (the SERIAL id column is never consulted
by any query of the source and is omitted). -/
structure EmployeeRecord where
  name : String
  salary : Int
deriving DecidableEq, Repr

/-- The failures surfaced by the store operations in src/postgres_client.rs:
fetch_one finding no row, a fetched or inserted value failing its check,
or the salary arithmetic failing. -/
inductive DBError where
  | notFound
  | invalidData (e : CheckError)
  | arith (e : IncreaseError)
deriving DecidableEq, Repr

/-- postgres_client.rs init_db: CREATE TABLE IF NOT EXISTS employees.
The schema state is None when the table is absent and some rows when it is
present; the statement creates an empty table when absent and leaves an
existing table untouched, and never fails. -/
def init_db (s : Option (List EmployeeRecord)) :
    Except DBError (Option (List EmployeeRecord)) :=
  match s with
  | none => .ok (some [])
  | some db => .ok (some db)

/-- postgres_client.rs get_employee_salary: SELECT salary FROM employees
WHERE name = $1 with fetch_one (first matching row in insertion order,
error when none), then UncheckedEmployeeSalary::check on the fetched value. -/
def get_employee_salary (db : List EmployeeRecord) (data : EmployeeName) :
    Except DBError EmployeeSalary :=
  match db.find? (fun r => r.name == data.name) with
  | none => .error .notFound
  | some r =>
    match UncheckedEmployeeSalary.check ⟨r.salary⟩ with
    | .error e => .error (.invalidData e)
    | .ok s => .ok s

/-- postgres_client.rs add_new_employee: INSERT INTO employees(name, salary)
VALUES ($1, $2) appends a row; no uniqueness constraint exists. -/
def add_new_employee (db : List EmployeeRecord) (data : EmployeeData) :
    List EmployeeRecord :=
  db ++ [⟨data.name, data.salary⟩]

/-- The body of the transaction in postgres_client.rs
increase_employee_salary: SELECT the salary of the first row matching the
name (error notFound when none), check it, run increase_by_percentage, then
UPDATE employees SET salary = $1 WHERE name = $2 (rewriting every matching
row). On success it yields the updated table and the old salary. -/
def increase_employee_salary (db : List EmployeeRecord)
    (data : SalaryMultiplier) :
    Except DBError (List EmployeeRecord × EmployeeSalary) :=
  match db.find? (fun r => r.name == data.name) with
  | none => .error .notFound
  | some r =>
    match UncheckedEmployeeSalary.check ⟨r.salary⟩ with
    | .error e => .error (.invalidData e)
    | .ok s =>
      match increase_by_percentage s.amount data.percentage with
      | .error e => .error (.arith e)
      | .ok (newAmount, oldAmount) =>
        .ok (db.map (fun rec =>
               if rec.name == data.name then ⟨rec.name, newAmount⟩ else rec),
             ⟨oldAmount⟩)

/-- The begin/commit wrapper of increase_employee_salary: the transaction
body runs against the current table; on success the new table is committed,
on any error the transaction is rolled back and the table is unchanged. -/
def run_increase (db : List EmployeeRecord) (data : SalaryMultiplier) :
    List EmployeeRecord × Except DBError EmployeeSalary :=
  match increase_employee_salary db data with
  | .error e => (db, .error e)
  | .ok (db2, old) => (db2, .ok old)

/-- Closed form of increase_by_percentage as a cascade of range tests,
used to reason about its branches. -/
theorem increase_eq (a p : Int) :
    increase_by_percentage a p =
      if inI32 (a * p) then
        if inI32 (a * p + 100) then
          if inI32 (a * p + 100 - 1) then
            if (100 : Int) = 0 ∨ (a * p + 100 - 1 = i32min ∧ (100 : Int) = -1) then
              Except.error IncreaseError.divError
            else
              if inI32 (a + (a * p + 100 - 1).tdiv 100) then
                if a + (a * p + 100 - 1).tdiv 100 ≤ 0 then
                  Except.error IncreaseError.invalidResult
                else
                  Except.ok (a + (a * p + 100 - 1).tdiv 100, a)
              else Except.error IncreaseError.finalAddOverflow
          else Except.error IncreaseError.subUnderflow
        else Except.error IncreaseError.addOverflow
      else Except.error IncreaseError.mulOverflow := by
  by_cases h1 : inI32 (a * p) <;>
    by_cases h2 : inI32 (a * p + 100) <;>
      by_cases h3 : inI32 (a * p + 100 - 1) <;>
        by_cases h4 : (100 : Int) = 0 ∨ (a * p + 100 - 1 = i32min ∧ (100 : Int) = -1) <;>
          by_cases h5 : inI32 (a + (a * p + 100 - 1).tdiv 100) <;>
            by_cases h6 : a + (a * p + 100 - 1).tdiv 100 ≤ 0 <;>
              simp [increase_by_percentage, checked_mul, checked_add, checked_sub,
                checked_div, check_salary, h1, h2, h3, h4, h5, h6]

/-- Claim C1: for every checked salary (amount > 0) and checked multiplier
(percentage > 0), increase_by_percentage follows the exact step sequence
multiply, add 100, subtract 1, truncating divide by 100, add to the current
salary, so on success the new salary is current + floor((current *
percentage + 99) / 100) and the operation returns both the old and the new
value; in particular (100, 25) yields (125, 100), (1000, 25) yields
(1250, 1000), (1000, 50) yields (1500, 1000), (1000, 100) yields
(2000, 1000) and (1000, 200) yields (3000, 1000). -/
theorem C1_increase_formula :
    (∀ amount percentage newAmount oldAmount : Int,
      0 < amount → 0 < percentage →
      increase_by_percentage amount percentage = .ok (newAmount, oldAmount) →
      oldAmount = amount ∧
        newAmount = amount + (amount * percentage + 99) / 100)
    ∧ increase_by_percentage 100 25 = .ok (125, 100)
    ∧ increase_by_percentage 1000 25 = .ok (1250, 1000)
    ∧ increase_by_percentage 1000 50 = .ok (1500, 1000)
    ∧ increase_by_percentage 1000 100 = .ok (2000, 1000)
    ∧ increase_by_percentage 1000 200 = .ok (3000, 1000) := by
  refine ⟨?_, rfl, rfl, rfl, rfl, rfl⟩
  intro a p n o ha hp h
  rw [increase_eq] at h
  split_ifs at h with h1 h2 h3 h4 h5 h6
  simp only [Except.ok.injEq, Prod.mk.injEq] at h
  obtain ⟨hn, ho⟩ := h
  have hap : 0 < a * p := mul_pos ha hp
  have h99 : a * p + 100 - 1 = a * p + 99 := by ring
  refine ⟨ho.symm, ?_⟩
  rw [← hn, h99, Int.tdiv_eq_ediv (by linarith) (by norm_num)]

/-- Witness for C1 at amount 100, percentage 25. -/
theorem C1_witness :
    (100 : Int) = 100 ∧ (125 : Int) = 100 + (100 * 25 + 99) / 100 :=
  C1_increase_formula.1 100 25 125 100 (by decide) (by decide) rfl

/-- Claim C3: every arithmetic step of increase_by_percentage is checked:
increase_by_percentage 2147483647 100 fails with the multiplication
overflow error, and every successful run returns a value that fits in i32
and equals the exact mathematical result of the step sequence, never a
wrapped or truncated value. -/
theorem C3_checked_arithmetic :
    increase_by_percentage 2147483647 100 = .error .mulOverflow
    ∧ (∀ amount percentage newAmount oldAmount : Int,
        increase_by_percentage amount percentage = .ok (newAmount, oldAmount) →
        inI32 newAmount ∧
          newAmount = amount + (amount * percentage + 100 - 1).tdiv 100 ∧
          oldAmount = amount) := by
  refine ⟨rfl, ?_⟩
  intro a p n o h
  rw [increase_eq] at h
  split_ifs at h with h1 h2 h3 h4 h5 h6
  simp only [Except.ok.injEq, Prod.mk.injEq] at h
  obtain ⟨hn, ho⟩ := h
  exact ⟨hn ▸ h5, hn.symm, ho.symm⟩

/-- Witness for C3 at amount 100, percentage 25. -/
theorem C3_witness :
    inI32 125 ∧ (125 : Int) = 100 + ((100 : Int) * 25 + 100 - 1).tdiv 100 ∧
      (100 : Int) = 100 :=
  C3_checked_arithmetic.2 100 25 125 100 rfl

/-- Claim C9: for amount > 0 and percentage > 0 the subtraction-underflow
branch, the division-error branch and the final salary-invariant branch of
increase_by_percentage are unreachable: a failure can only be the overflow
of the multiplication or of one of the two additions, and every successful
result satisfies the salary invariant 0 < newAmount. -/
theorem C9_unreachable_branches (amount percentage : Int)
    (ha : 0 < amount) (hp : 0 < percentage) :
    (∀ e : IncreaseError,
        increase_by_percentage amount percentage = .error e →
        e = .mulOverflow ∨ e = .addOverflow ∨ e = .finalAddOverflow)
    ∧ (∀ newAmount oldAmount : Int,
        increase_by_percentage amount percentage = .ok (newAmount, oldAmount) →
        0 < newAmount) := by
  have hap : 0 < amount * percentage := mul_pos ha hp
  rw [increase_eq]
  split_ifs with h1 h2 h3 h4 h5 h6
  · exfalso
    rcases h4 with h | ⟨hx, h⟩ <;> norm_num at h
  · exfalso
    have ht : 0 ≤ (amount * percentage + 100 - 1).tdiv 100 :=
      Int.tdiv_nonneg (by linarith) (by norm_num)
    linarith
  · constructor
    · intro e he
      exact he.elim
    · intro n o h
      simp only [Except.ok.injEq, Prod.mk.injEq] at h
      obtain ⟨hn, ho⟩ := h
      have ht : 0 ≤ (amount * percentage + 100 - 1).tdiv 100 :=
        Int.tdiv_nonneg (by linarith) (by norm_num)
      linarith [hn]
  · constructor
    · intro e he
      injection he with hh
      exact Or.inr (Or.inr hh.symm)
    · intro n o h
      exact h.elim
  · exfalso
    apply h3
    unfold inI32 i32min i32max at h2 ⊢
    constructor <;> linarith
  · constructor
    · intro e he
      injection he with hh
      exact Or.inr (Or.inl hh.symm)
    · intro n o h
      exact h.elim
  · constructor
    · intro e he
      injection he with hh
      exact Or.inl hh.symm
    · intro n o h
      exact h.elim

/-- Witness for C9 at amount 100, percentage 25. -/
theorem C9_witness : 0 < (125 : Int) :=
  (C9_unreachable_branches 100 25 (by decide) (by decide)).2 125 100 rfl

/-- Claim C4: the check operations succeed exactly when the validation
predicates hold: a name check succeeds iff the string is non-empty after
trimming; a salary check succeeds iff the amount is positive; a multiplier
check succeeds iff the trimmed name is non-empty and the percentage is
positive, with the name condition checked first and the first violated
condition reported; every checked value satisfies its predicate. -/
theorem C4_validation :
    (∀ n : UncheckedEmployeeName,
        (∃ en, n.check = .ok en) ↔ trimChars n.name.data ≠ [])
    ∧ (∀ (n : UncheckedEmployeeName) (en : EmployeeName),
        n.check = .ok en → trimChars en.name.data ≠ [])
    ∧ (∀ s : UncheckedEmployeeSalary,
        (∃ es, s.check = .ok es) ↔ 0 < s.amount)
    ∧ (∀ (s : UncheckedEmployeeSalary) (es : EmployeeSalary),
        s.check = .ok es → 0 < es.amount)
    ∧ (∀ m : UncheckedSalaryMultiplier,
        (∃ sm, m.check = .ok sm) ↔
          (trimChars m.name.data ≠ [] ∧ 0 < m.percentage))
    ∧ (∀ m : UncheckedSalaryMultiplier,
        trimChars m.name.data = [] → m.check = .error .invalidName)
    ∧ (∀ m : UncheckedSalaryMultiplier,
        trimChars m.name.data ≠ [] → m.percentage ≤ 0 →
          m.check = .error .invalidPercentage)
    ∧ (∀ (m : UncheckedSalaryMultiplier) (sm : SalaryMultiplier),
        m.check = .ok sm → trimChars sm.name.data ≠ [] ∧ 0 < sm.percentage) := by
  refine ⟨?_, ?_, ?_, ?_, ?_, ?_, ?_, ?_⟩
  · intro n
    by_cases h : trimChars n.name.data = [] <;>
      simp [UncheckedEmployeeName.check, check_name, h]
  · intro n en h
    by_cases ht : trimChars n.name.data = []
    · simp [UncheckedEmployeeName.check, check_name, ht] at h
    · simp [UncheckedEmployeeName.check, check_name, ht] at h
      subst h
      simpa using ht
  · intro s
    by_cases h : s.amount ≤ 0 <;>
      simp [UncheckedEmployeeSalary.check, check_salary, h]
    omega
  · intro s es h
    by_cases ht : s.amount ≤ 0
    · simp [UncheckedEmployeeSalary.check, check_salary, ht] at h
    · simp [UncheckedEmployeeSalary.check, check_salary, ht] at h
      subst h
      simpa using ht
  · intro m
    by_cases h1 : trimChars m.name.data = [] <;>
      by_cases h2 : m.percentage ≤ 0 <;>
        simp [UncheckedSalaryMultiplier.check, check_name, check_percentage,
          h1, h2]
    omega
  · intro m h
    simp [UncheckedSalaryMultiplier.check, check_name, h]
  · intro m h1 h2
    simp [UncheckedSalaryMultiplier.check, check_name, check_percentage, h1, h2]
  · intro m sm h
    by_cases h1 : trimChars m.name.data = [] <;>
      by_cases h2 : m.percentage ≤ 0 <;>
        simp [UncheckedSalaryMultiplier.check, check_name, check_percentage,
          h1, h2] at h
    subst h
    exact ⟨by simpa using h1, by simpa using h2⟩

/-- Witness for C4: the checked multiplier (Test Employee, 100) satisfies
both predicates. -/
theorem C4_witness :
    trimChars ("Test Employee" : String).data ≠ [] ∧ 0 < (100 : Int) :=
  C4_validation.2.2.2.2.2.2.2 ⟨"Test Employee", 100⟩ ⟨"Test Employee", 100⟩ rfl

/-- Claim C5: on a table whose rows all carry positive salaries (the store
invariant maintained by the validated insert and update paths),
get_employee_salary fails with notFound exactly when no row name equals the
requested name under exact case-sensitive string equality, and when a row
matches, the salary of the first matching row is returned. -/
theorem C5_get_salary (db : List EmployeeRecord) (data : EmployeeName)
    (hinv : ∀ r ∈ db, 0 < r.salary) :
    (get_employee_salary db data = .error .notFound ↔
      ∀ r ∈ db, r.name ≠ data.name)
    ∧ (∀ r : EmployeeRecord,
        db.find? (fun rec => rec.name == data.name) = some r →
        get_employee_salary db data = .ok ⟨r.salary⟩) := by
  have main : ∀ r : EmployeeRecord,
      db.find? (fun rec => rec.name == data.name) = some r →
      get_employee_salary db data = .ok ⟨r.salary⟩ := by
    intro r hf
    have hmem := List.mem_of_find?_eq_some hf
    have hs : ¬ r.salary ≤ 0 := not_le.mpr (hinv r hmem)
    unfold get_employee_salary
    rw [hf]
    simp [UncheckedEmployeeSalary.check, check_salary, hs]
  refine ⟨?_, main⟩
  cases hf : db.find? (fun rec => rec.name == data.name) with
  | none =>
    have hnone := hf
    rw [List.find?_eq_none] at hnone
    constructor
    · intro _ r hr
      simpa using hnone r hr
    · intro _
      unfold get_employee_salary
      rw [hf]
  | some r =>
    rw [main r hf]
    constructor
    · intro h
      exact Except.noConfusion h
    · intro hall
      exfalso
      have hname : r.name = data.name := by
        simpa using List.find?_some hf
      exact hall r (List.mem_of_find?_eq_some hf) hname

/-- Witness for C5: a lookup for the name B on a table holding only the
name A fails with notFound. -/
theorem C5_witness :
    get_employee_salary [⟨"A", 5⟩] ⟨"B"⟩ = .error .notFound :=
  (C5_get_salary [⟨"A", 5⟩] ⟨"B"⟩ (by decide)).1.mpr (by decide)

/-- Claim C6: whenever the increase operation fails - stored value failing
its check, arithmetic overflow or underflow, or an invalid result - the
transaction is rolled back and the table is exactly the previous one; in
particular when the arithmetic step fails on the salary of the first row
matching the name, no write occurs and the arithmetic error is surfaced. -/
theorem C6_failure_preserves_state (db : List EmployeeRecord)
    (data : SalaryMultiplier) :
    (∀ (db2 : List EmployeeRecord) (e : DBError),
        run_increase db data = (db2, .error e) → db2 = db)
    ∧ (∀ r : EmployeeRecord,
        db.find? (fun rec => rec.name == data.name) = some r →
        0 < r.salary →
        ∀ e : IncreaseError,
          increase_by_percentage r.salary data.percentage = .error e →
          run_increase db data = (db, .error (.arith e))) := by
  constructor
  · intro db2 e h
    unfold run_increase at h
    cases hi : increase_employee_salary db data with
    | error e2 =>
      rw [hi] at h
      simp only [Prod.mk.injEq] at h
      exact h.1.symm
    | ok val =>
      obtain ⟨db3, old⟩ := val
      rw [hi] at h
      simp only [Prod.mk.injEq] at h
      exact absurd h.2 (fun hc => Except.noConfusion hc)
  · intro r hf hs e he
    have hs2 : ¬ r.salary ≤ 0 := not_le.mpr hs
    unfold run_increase increase_employee_salary
    rw [hf]
    simp [UncheckedEmployeeSalary.check, check_salary, hs2, he]

/-- Witness for C6: increasing the maximal salary by 100 percent rolls the
transaction back, surfacing the multiplication overflow. -/
theorem C6_witness :
    run_increase [⟨"A", 2147483647⟩] ⟨"A", 100⟩ =
      ([⟨"A", 2147483647⟩], .error (.arith .mulOverflow)) :=
  (C6_failure_preserves_state [⟨"A", 2147483647⟩] ⟨"A", 100⟩).2
    ⟨"A", 2147483647⟩ rfl (by decide) .mulOverflow rfl

/-- Claim C7: for every valid name not already present in the table and
every positive salary, add_new_employee followed by get_employee_salary on
that name returns that salary. -/
theorem C7_round_trip (db : List EmployeeRecord) (name : String)
    (salary : Int) (hfresh : ∀ r ∈ db, r.name ≠ name) (hs : 0 < salary) :
    get_employee_salary (add_new_employee db ⟨name, salary⟩) ⟨name⟩ =
      .ok ⟨salary⟩ := by
  have hs2 : ¬ salary ≤ 0 := not_le.mpr hs
  have h1 : db.find? (fun rec => rec.name == name) = none := by
    rw [List.find?_eq_none]
    intro r hr
    simpa using hfresh r hr
  unfold get_employee_salary add_new_employee
  dsimp only
  rw [List.find?_append, h1]
  simp [List.find?, UncheckedEmployeeSalary.check, check_salary, hs2]

/-- Witness for C7: inserting A with salary 5000 into the empty table and
reading A back yields 5000. -/
theorem C7_witness :
    get_employee_salary (add_new_employee [] ⟨"A", 5000⟩) ⟨"A"⟩ =
      .ok ⟨5000⟩ :=
  C7_round_trip [] "A" 5000 (by decide) (by decide)

/-- Claim C8: init_db (the non-clearing schema initialization) is
idempotent: a second call leaves the state produced by the first call
unchanged, it never fails, and when the table already exists it succeeds
and preserves all existing rows. -/
theorem C8_init_idempotent :
    (∀ s s1, init_db s = .ok s1 → init_db s1 = .ok s1)
    ∧ (∀ db : List EmployeeRecord, init_db (some db) = .ok (some db))
    ∧ (∀ s, ∃ s1, init_db s = .ok s1) := by
  refine ⟨?_, fun db => rfl, ?_⟩
  · intro s s1 h
    cases s with
    | none =>
      simp only [init_db, Except.ok.injEq] at h
      rw [← h]
      rfl
    | some db =>
      simp only [init_db, Except.ok.injEq] at h
      rw [← h]
      rfl
  · intro s
    cases s with
    | none => exact ⟨some [], rfl⟩
    | some db => exact ⟨some db, rfl⟩

/-- Witness for C8: initializing the schema over the freshly created empty
table succeeds and leaves it as it is. -/
theorem C8_witness : init_db (some []) = .ok (some []) :=
  C8_init_idempotent.1 none (some []) rfl

/-- Claim C10: the name check validates the trimmed string but the checked
name carries the raw input verbatim, so two names that differ only in
surrounding whitespace both pass validation and act as distinct store keys
for insertion and lookup. -/
theorem C10_untrimmed_keys :
    (∀ n : UncheckedEmployeeName, trimChars n.name.data ≠ [] →
        n.check = .ok ⟨n.name⟩)
    ∧ (∀ (n1 n2 : String) (s1 s2 : Int),
        trimChars n1.data = trimChars n2.data → n1 ≠ n2 →
        trimChars n1.data ≠ [] → 0 < s1 → 0 < s2 →
        (UncheckedEmployeeName.check ⟨n1⟩ = .ok ⟨n1⟩
          ∧ UncheckedEmployeeName.check ⟨n2⟩ = .ok ⟨n2⟩)
        ∧ get_employee_salary
            (add_new_employee (add_new_employee [] ⟨n1, s1⟩) ⟨n2, s2⟩) ⟨n1⟩
            = .ok ⟨s1⟩
        ∧ get_employee_salary
            (add_new_employee (add_new_employee [] ⟨n1, s1⟩) ⟨n2, s2⟩) ⟨n2⟩
            = .ok ⟨s2⟩) := by
  have key : ∀ n : UncheckedEmployeeName, trimChars n.name.data ≠ [] →
      n.check = .ok ⟨n.name⟩ := by
    intro n h
    simp [UncheckedEmployeeName.check, check_name, h]
  refine ⟨key, ?_⟩
  intro n1 n2 s1 s2 heq hne ht1 hs1 hs2
  have ht2 : trimChars n2.data ≠ [] := heq ▸ ht1
  have hs1n : ¬ s1 ≤ 0 := not_le.mpr hs1
  have hs2n : ¬ s2 ≤ 0 := not_le.mpr hs2
  have hbe : (n1 == n2) = false := beq_eq_false_iff_ne.mpr hne
  refine ⟨⟨key ⟨n1⟩ ht1, key ⟨n2⟩ ht2⟩, ?_, ?_⟩
  · unfold get_employee_salary add_new_employee
    simp [List.find?, UncheckedEmployeeSalary.check, check_salary, hs1n]
  · unfold get_employee_salary add_new_employee
    simp [List.find?, UncheckedEmployeeSalary.check, check_salary, hs2n, hbe]

/-- Witness for C10: the names A and A-with-trailing-space both validate
and index two distinct records. -/
theorem C10_witness :
    get_employee_salary
        (add_new_employee (add_new_employee [] ⟨"A", 1⟩) ⟨"A ", 2⟩) ⟨"A "⟩
      = .ok ⟨2⟩ :=
  (C10_untrimmed_keys.2 "A" "A " 1 2 (by decide) (by decide) (by decide)
      (by decide) (by decide)).2.2

end WBTest
